import Mathlib

/-!
Verification of the hybrid X25519MLKEM768 key-exchange combiner
(`rustls-post-quantum/src/lib.rs`).

Byte buffers are modelled as `List Nat`.  The combiner's own code (share
codec, secret combiner, protocol roles) is translated directly from the
source.  The underlying X25519 exchange and the ML-KEM-768 KEM are external
collaborators: they are modelled abstractly, as provider structures whose
fields carry the contracts the specification assigns to them.
-/

abbrev Bytes := List Nat

/-- `X25519_LEN` from the source. -/
def X25519_LEN : Nat := 32

/-- `MLKEM768_CIPHERTEXT_LEN` from the source. -/
def MLKEM768_CIPHERTEXT_LEN : Nat := 1088

/-- `MLKEM768_ENCAP_LEN` from the source. -/
def MLKEM768_ENCAP_LEN : Nat := 1184

/-- `MLKEM768_SECRET_LEN` from the source. -/
def MLKEM768_SECRET_LEN : Nat := 32

/-- `COMBINED_PUBKEY_LEN = MLKEM768_ENCAP_LEN + X25519_LEN`. -/
def COMBINED_PUBKEY_LEN : Nat := MLKEM768_ENCAP_LEN + X25519_LEN

/-- `COMBINED_CIPHERTEXT_LEN = MLKEM768_CIPHERTEXT_LEN + X25519_LEN`. -/
def COMBINED_CIPHERTEXT_LEN : Nat := MLKEM768_CIPHERTEXT_LEN + X25519_LEN

/-- `COMBINED_SHARED_SECRET_LEN = MLKEM768_SECRET_LEN + X25519_LEN`. -/
def COMBINED_SHARED_SECRET_LEN : Nat := MLKEM768_SECRET_LEN + X25519_LEN

/-- The `rustls::PeerMisbehaved` variants used by this crate. -/
inductive PeerMisbehaved where
  | InvalidKeyShare
deriving DecidableEq, Repr

/-- The `rustls::Error` variants reachable from this crate's code. -/
inductive Error where
  | PeerMisbehaved (pm : PeerMisbehaved)
  | FailedToGetRandomBytes
deriving DecidableEq, Repr

/-- `INVALID_KEY_SHARE = Error::PeerMisbehaved(PeerMisbehaved::InvalidKeyShare)`. -/
def INVALID_KEY_SHARE : Error := .PeerMisbehaved .InvalidKeyShare

/-- The `rustls::NamedGroup` identifiers relevant here: the code only
produces `NamedGroup::Unknown(0x11ec)`; a couple of known groups are kept so
the type is not degenerate. -/
inductive NamedGroup where
  | X25519
  | secp256r1
  | Unknown (v : Nat)
deriving DecidableEq, Repr

/-- `NAMED_GROUP = NamedGroup::Unknown(0x11ec)` from the source. -/
def NAMED_GROUP : NamedGroup := .Unknown 0x11ec

/-- The `rustls::ProtocolVersion` enumeration (known variants plus the
`Unknown` catch-all); equality is the derived structural equality, as in the
source. -/
inductive ProtocolVersion where
  | SSLv2
  | SSLv3
  | TLSv1_0
  | TLSv1_1
  | TLSv1_2
  | TLSv1_3
  | DTLSv1_0
  | DTLSv1_2
  | DTLSv1_3
  | Unknown (v : Nat)
deriving DecidableEq, Repr

/-- `buf[off .. off+src.len()].copy_from_slice(src)` on a byte buffer:
replaces `src.length` bytes of `dst` starting at `off`.  Faithful to the
Rust operation whenever the source slice length equals the range length,
which every call site in this crate guarantees by construction. -/
def copyInto (dst : Bytes) (off : Nat) (src : Bytes) : Bytes :=
  dst.take off ++ src ++ dst.drop (off + src.length)

/-- `ReceivedShare` from the source: the two borrowed halves of a decoded
combined share. -/
structure ReceivedShare where
  ml_kem : Bytes
  x25519 : Bytes
deriving DecidableEq, Repr

/-- `ReceivedShare::new`: reject any buffer whose length is not
`COMBINED_PUBKEY_LEN`, otherwise split at `MLKEM768_ENCAP_LEN`. -/
def ReceivedShare.new (buf : Bytes) : Option ReceivedShare :=
  if buf.length ≠ COMBINED_PUBKEY_LEN then
    none
  else
    some { ml_kem := buf.take MLKEM768_ENCAP_LEN, x25519 := buf.drop MLKEM768_ENCAP_LEN }

/-- `ReceivedCiphertext` from the source: the two borrowed halves of a
decoded combined ciphertext. -/
structure ReceivedCiphertext where
  ml_kem : Bytes
  x25519 : Bytes
deriving DecidableEq, Repr

/-- `ReceivedCiphertext::new`: reject any buffer whose length is not
`COMBINED_CIPHERTEXT_LEN`, otherwise split at `MLKEM768_CIPHERTEXT_LEN`. -/
def ReceivedCiphertext.new (buf : Bytes) : Option ReceivedCiphertext :=
  if buf.length ≠ COMBINED_CIPHERTEXT_LEN then
    none
  else
    some { ml_kem := buf.take MLKEM768_CIPHERTEXT_LEN, x25519 := buf.drop MLKEM768_CIPHERTEXT_LEN }

/-- `CombinedSecret::combine`: a zeroed `COMBINED_SHARED_SECRET_LEN` buffer,
KEM secret copied to `[0, MLKEM768_SECRET_LEN)`, classical secret copied to
`[MLKEM768_SECRET_LEN, ..)`.  Argument order follows the source:
`combine(x25519, ml_kem)`. -/
def CombinedSecret.combine (x25519 ml_kem : Bytes) : Bytes :=
  let out := List.replicate COMBINED_SHARED_SECRET_LEN 0
  let out := copyInto out 0 ml_kem
  copyInto out MLKEM768_SECRET_LEN x25519

/-- `CombinedShare::combine`: a zeroed `COMBINED_CIPHERTEXT_LEN` buffer, KEM
ciphertext copied to `[0, MLKEM768_CIPHERTEXT_LEN)`, classical public key
copied to `[MLKEM768_CIPHERTEXT_LEN, ..)`. -/
def CombinedShare.combine (x25519 ml_kem : Bytes) : Bytes :=
  let out := List.replicate COMBINED_CIPHERTEXT_LEN 0
  let out := copyInto out 0 ml_kem
  copyInto out MLKEM768_CIPHERTEXT_LEN x25519

/-- `X25519MLKEM768::usable_for_version`: true exactly on `TLSv1_3` by the
derived structural equality. -/
def X25519MLKEM768.usable_for_version (version : ProtocolVersion) : Bool :=
  version == ProtocolVersion.TLSv1_3

/-- `X25519MLKEM768::name`: the constant `NAMED_GROUP`. -/
def X25519MLKEM768.name : NamedGroup := NAMED_GROUP

/-- Modelled from the spec: the classical (X25519) exchange provider of §6,
whose implementation (`rustls::crypto::aws_lc_rs::kx_group::X25519`) is not
part of this crate.  `start` consumes entropy, modelled as a `Nat` seed, and
yields the private ephemeral state and the 32-byte public key, or `none` on
entropy failure (spec §7, local fault).  `complete` combines the private
state with the peer's 32-byte public key and yields the 32-byte shared
secret, or `none` when the primitive rejects the peer's material (spec §7,
invalid key share). -/
structure ClassicalProvider where
  start : Nat → Option (Bytes × Bytes)
  complete : Bytes → Bytes → Option Bytes

/-- Modelled from the spec: the classical provider's one-step responder
operation of §6, `start_and_complete(peer_pub) -> (pub_key_bytes, secret)`
(generate an ephemeral pair, then compute the shared secret); entropy
failure surfaces as the local fault and a rejected peer key as the
"invalid key share" condition, per §7. -/
def ClassicalProvider.start_and_complete (cp : ClassicalProvider) (r : Nat)
    (peer : Bytes) : Except Error (Bytes × Bytes) :=
  match cp.start r with
  | none => .error .FailedToGetRandomBytes
  | some (xpriv, xpub) =>
    match cp.complete xpriv peer with
    | none => .error INVALID_KEY_SHARE
    | some secret => .ok (xpub, secret)

/-- Modelled from the spec: the ML-KEM-768 provider of §6 (the `aws_lc_rs`
KEM, not part of this crate).  `generate` consumes entropy and yields the
decapsulation key or `none` on entropy failure; `encapsulation_key` derives
the 1184-byte public encapsulation-key bytes from a decapsulation key
(`encapsulation_key()` followed by `key_bytes()` in the source), `none` on
failure; `new_encapsulation_key` validates peer-supplied encapsulation-key
bytes (`EncapsulationKey::new`), `none` on rejection; `encapsulate` consumes
entropy against a validated key and yields the 1088-byte ciphertext and the
32-byte shared secret, `none` on failure; `decapsulate` recovers the shared
secret from a ciphertext with the decapsulation key, `none` on failure. -/
structure KemProvider where
  generate : Nat → Option Bytes
  encapsulation_key : Bytes → Option Bytes
  new_encapsulation_key : Bytes → Option Bytes
  encapsulate : Bytes → Nat → Option (Bytes × Bytes)
  decapsulate : Bytes → Bytes → Option Bytes

/-- `Active` from the source: the initiator's ephemeral state between
`start()` and `complete()` — the in-progress classical exchange (modelled by
its private state bytes), the KEM decapsulation key, and the already
serialized combined public share. -/
structure Active where
  x25519 : Bytes
  decap_key : Bytes
  combined_pub_key : Bytes
deriving DecidableEq, Repr

/-- `rustls::crypto::CompletedKeyExchange`: the responder's result. -/
structure CompletedKeyExchange where
  group : NamedGroup
  pub_key : Bytes
  secret : Bytes
deriving DecidableEq, Repr

/-- `X25519MLKEM768::start`, translated from the source: start the classical
exchange, generate a KEM decapsulation key (failure mapped to
`FailedToGetRandomBytes`), derive its encapsulation key (failure mapped to
`FailedToGetRandomBytes`), and build `combined_pub_key` by appending the KEM
encapsulation-key bytes and then the classical public key.  The two `Nat`
arguments are the entropy consumed by the two key generations. -/
def X25519MLKEM768.start (cp : ClassicalProvider) (kp : KemProvider)
    (r1 r2 : Nat) : Except Error Active :=
  match cp.start r1 with
  | none => .error .FailedToGetRandomBytes
  | some (xpriv, xpub) =>
    match kp.generate r2 with
    | none => .error .FailedToGetRandomBytes
    | some ml_kem =>
      match kp.encapsulation_key ml_kem with
      | none => .error .FailedToGetRandomBytes
      | some ml_kem_pub =>
        .ok { x25519 := xpriv, decap_key := ml_kem,
              combined_pub_key := ml_kem_pub ++ xpub }

/-- `X25519MLKEM768::start_and_complete`, translated from the source: decode
the client share (wrong length → `INVALID_KEY_SHARE`); run the classical
one-step exchange on the classical half, propagating its error; validate the
peer's KEM encapsulation key and encapsulate (each failure →
`INVALID_KEY_SHARE`); combine the secrets and the shares. -/
def X25519MLKEM768.start_and_complete (cp : ClassicalProvider)
    (kp : KemProvider) (r1 r2 : Nat) (client_share : Bytes) :
    Except Error CompletedKeyExchange :=
  match ReceivedShare.new client_share with
  | none => .error INVALID_KEY_SHARE
  | some share =>
    match cp.start_and_complete r1 share.x25519 with
    | .error e => .error e
    | .ok (xpub, xsecret) =>
      match kp.new_encapsulation_key share.ml_kem with
      | none => .error INVALID_KEY_SHARE
      | some pk =>
        match kp.encapsulate pk r2 with
        | none => .error INVALID_KEY_SHARE
        | some (ml_kem_share, ml_kem_secret) =>
          .ok { group := X25519MLKEM768.name,
                pub_key := CombinedShare.combine xpub ml_kem_share,
                secret := CombinedSecret.combine xsecret ml_kem_secret }

/-- `Active::complete`, translated from the source: decode the ciphertext
(wrong length → `INVALID_KEY_SHARE`); complete the classical exchange on the
classical half (the inner X25519 exchange reports a rejected peer key as
`INVALID_KEY_SHARE`, per spec §7, and the source propagates that error);
decapsulate the KEM half (failure → `INVALID_KEY_SHARE`); combine the two
secrets. -/
def Active.complete (cp : ClassicalProvider) (kp : KemProvider) (a : Active)
    (peer_pub_key : Bytes) : Except Error Bytes :=
  match ReceivedCiphertext.new peer_pub_key with
  | none => .error INVALID_KEY_SHARE
  | some ct =>
    match cp.complete a.x25519 ct.x25519 with
    | none => .error INVALID_KEY_SHARE
    | some xsecret =>
      match kp.decapsulate a.decap_key ct.ml_kem with
      | none => .error INVALID_KEY_SHARE
      | some ml_kem_secret => .ok (CombinedSecret.combine xsecret ml_kem_secret)

/-- `Active::pub_key`: the stored combined public share. -/
def Active.pub_key (a : Active) : Bytes :=
  a.combined_pub_key

/-- `Active::group`: the constant `NAMED_GROUP`. -/
def Active.group (_ : Active) : NamedGroup :=
  NAMED_GROUP

/-- Two fixed-offset copies into a zeroed, exactly pre-sized buffer amount to
concatenation of the two sources. -/
theorem copyInto_copyInto_replicate (k x : Bytes) (n m : Nat)
    (hk : k.length = n) (hx : x.length = m) :
    copyInto (copyInto (List.replicate (n + m) 0) 0 k) n x = k ++ x := by
  subst hk hx
  have h1 : copyInto (List.replicate (k.length + x.length) 0) 0 k
      = k ++ List.replicate x.length 0 := by
    simp [copyInto, List.drop_replicate]
  rw [h1]
  have ht : (k ++ List.replicate x.length 0).take k.length = k :=
    List.take_left k _
  have hd : (k ++ List.replicate x.length 0).drop (k.length + x.length) = [] := by
    apply List.drop_eq_nil_of_le
    simp
  simp [copyInto, ht, hd]

/-- `CombinedSecret::combine` on full-length secrets is the KEM secret
followed by the classical secret. -/
theorem combined_secret_eq_append (x k : Bytes)
    (hx : x.length = X25519_LEN) (hk : k.length = MLKEM768_SECRET_LEN) :
    CombinedSecret.combine x k = k ++ x := by
  have h := copyInto_copyInto_replicate k x MLKEM768_SECRET_LEN X25519_LEN hk hx
  simpa [CombinedSecret.combine, COMBINED_SHARED_SECRET_LEN] using h

/-- `CombinedShare::combine` on full-length inputs is the KEM ciphertext
followed by the classical public key. -/
theorem combined_share_eq_append (x c : Bytes)
    (hx : x.length = X25519_LEN) (hc : c.length = MLKEM768_CIPHERTEXT_LEN) :
    CombinedShare.combine x c = c ++ x := by
  have h := copyInto_copyInto_replicate c x MLKEM768_CIPHERTEXT_LEN X25519_LEN hc hx
  simpa [CombinedShare.combine, COMBINED_CIPHERTEXT_LEN] using h

/-- Decoding a well-formed concatenated share recovers the two halves. -/
theorem received_share_new_append (k x : Bytes)
    (hk : k.length = MLKEM768_ENCAP_LEN) (hx : x.length = X25519_LEN) :
    ReceivedShare.new (k ++ x) = some ⟨k, x⟩ := by
  have ht : (k ++ x).take MLKEM768_ENCAP_LEN = k := List.take_left' hk
  have hd : (k ++ x).drop MLKEM768_ENCAP_LEN = x := List.drop_left' hk
  simp [ReceivedShare.new, COMBINED_PUBKEY_LEN, hk, hx, ht, hd]

/-- Decoding a well-formed concatenated ciphertext recovers the two halves. -/
theorem received_ciphertext_new_append (c x : Bytes)
    (hc : c.length = MLKEM768_CIPHERTEXT_LEN) (hx : x.length = X25519_LEN) :
    ReceivedCiphertext.new (c ++ x) = some ⟨c, x⟩ := by
  have ht : (c ++ x).take MLKEM768_CIPHERTEXT_LEN = c := List.take_left' hc
  have hd : (c ++ x).drop MLKEM768_CIPHERTEXT_LEN = x := List.drop_left' hc
  simp [ReceivedCiphertext.new, COMBINED_CIPHERTEXT_LEN, hc, hx, ht, hd]

/-- A concrete classical provider instantiating the abstract model in
witnesses: the public key is the seed value repeated, and the shared secret
is the product of the two sides' seed values, so honest runs agree. -/
def toyClassical : ClassicalProvider where
  start := fun r => some (List.replicate 32 (r % 256), List.replicate 32 (r % 256))
  complete := fun xpriv peer =>
    if peer.length = 32 then
      some (List.replicate 32 (xpriv.headD 0 * peer.headD 0 % 256))
    else
      none

/-- A concrete KEM provider instantiating the abstract model in witnesses:
keys and ciphertexts are repeated seed values and the shared secret is the
sum of the key seed and the encapsulation seed, so decapsulation agrees with
encapsulation. -/
def toyKem : KemProvider where
  generate := fun r => some (List.replicate 32 (r % 256))
  encapsulation_key := fun dk => some (List.replicate MLKEM768_ENCAP_LEN (dk.headD 0))
  new_encapsulation_key := fun b =>
    if b.length = MLKEM768_ENCAP_LEN then some b else none
  encapsulate := fun pk r =>
    some (List.replicate MLKEM768_CIPHERTEXT_LEN (r % 256),
      List.replicate 32 ((pk.headD 0 + r) % 256))
  decapsulate := fun dk ct =>
    some (List.replicate 32 ((dk.headD 0 + ct.headD 0) % 256))

/-- Witness value: the initiator's classical public key (and private state). -/
def wIpub : Bytes := List.replicate 32 1

/-- Witness value: the KEM decapsulation key. -/
def wDk : Bytes := List.replicate 32 2

/-- Witness value: the KEM encapsulation-key bytes. -/
def wEk : Bytes := List.replicate MLKEM768_ENCAP_LEN 2

/-- Witness value: the responder's classical public key (and private state). -/
def wRpub : Bytes := List.replicate 32 3

/-- Witness value: the classical shared secret of the honest toy run. -/
def wXs : Bytes := List.replicate 32 3

/-- Witness value: the KEM ciphertext of the honest toy run. -/
def wCts : Bytes := List.replicate MLKEM768_CIPHERTEXT_LEN 4

/-- Witness value: the KEM shared secret of the honest toy run. -/
def wKss : Bytes := List.replicate 32 6

/-- The KEM encapsulation-key length constant is positive. -/
theorem encap_len_ne_zero : MLKEM768_ENCAP_LEN ≠ 0 := by decide

/-- The KEM ciphertext length constant is positive. -/
theorem ct_len_ne_zero : MLKEM768_CIPHERTEXT_LEN ≠ 0 := by decide

/-- Toy run, initiator classical key generation. -/
theorem toy_start1 : toyClassical.start 1 = some (wIpub, wIpub) := by
  simp [toyClassical, wIpub]

/-- Toy run, responder classical key generation. -/
theorem toy_start3 : toyClassical.start 3 = some (wRpub, wRpub) := by
  simp [toyClassical, wRpub]

/-- Toy run, KEM key generation. -/
theorem toy_generate : toyKem.generate 2 = some wDk := by
  simp [toyKem, wDk]

/-- Toy run, encapsulation-key derivation. -/
theorem toy_encap_key : toyKem.encapsulation_key wDk = some wEk := by
  simp [toyKem, wDk, wEk, List.head?_replicate]

/-- Toy run, peer encapsulation-key validation. -/
theorem toy_new_ek : toyKem.new_encapsulation_key wEk = some wEk := by
  simp [toyKem, wEk]

/-- Toy run, encapsulation. -/
theorem toy_encapsulate : toyKem.encapsulate wEk 4 = some (wCts, wKss) := by
  simp [toyKem, wEk, wCts, wKss, List.head?_replicate, encap_len_ne_zero]

/-- Toy run, decapsulation recovers the encapsulated secret. -/
theorem toy_decapsulate : toyKem.decapsulate wDk wCts = some wKss := by
  simp [toyKem, wDk, wCts, wKss, List.head?_replicate, ct_len_ne_zero]

/-- Toy run, responder-side classical completion. -/
theorem toy_complete_r : toyClassical.complete wRpub wIpub = some wXs := by
  simp [toyClassical, wRpub, wIpub, wXs]

/-- Toy run, initiator-side classical completion, agreeing with the
responder side. -/
theorem toy_complete_i : toyClassical.complete wIpub wRpub = some wXs := by
  simp [toyClassical, wIpub, wRpub, wXs]

/-- Toy run, responder one-step classical exchange. -/
theorem toy_sac : toyClassical.start_and_complete 3 wIpub = .ok (wRpub, wXs) := by
  simp only [ClassicalProvider.start_and_complete, toy_start3, toy_complete_r]

/-- Toy encapsulation key has the contract length. -/
theorem wEk_len : wEk.length = MLKEM768_ENCAP_LEN := by simp [wEk]

/-- Toy initiator public key has the contract length. -/
theorem wIpub_len : wIpub.length = X25519_LEN := by simp [wIpub, X25519_LEN]

/-- Toy responder public key has the contract length. -/
theorem wRpub_len : wRpub.length = X25519_LEN := by simp [wRpub, X25519_LEN]

/-- Toy classical secret has the contract length. -/
theorem wXs_len : wXs.length = X25519_LEN := by simp [wXs, X25519_LEN]

/-- Toy KEM ciphertext has the contract length. -/
theorem wCts_len : wCts.length = MLKEM768_CIPHERTEXT_LEN := by simp [wCts]

/-- Toy KEM secret has the contract length. -/
theorem wKss_len : wKss.length = MLKEM768_SECRET_LEN := by
  simp [wKss, MLKEM768_SECRET_LEN]

/-- A classical provider whose entropy source always fails, exercising the
local-fault path of `start`. -/
def failClassical : ClassicalProvider where
  start := fun _ => none
  complete := fun _ _ => none

/-- The toy combined share has the expected total length. -/
theorem toy_share_len : (wEk ++ wIpub).length = 1216 := by
  rw [List.length_append, wEk_len, wIpub_len]
  decide

/-- The toy combined ciphertext has the expected total length. -/
theorem toy_ciphertext_len : (wCts ++ wRpub).length = 1120 := by
  rw [List.length_append, wCts_len, wRpub_len]
  decide

/-- C4: `ReceivedShare::new` returns `None` for every buffer whose length is
not exactly 1216 = 1184 + 32 and on a 1216-byte buffer splits at offset
1184; `ReceivedCiphertext::new` returns `None` for every buffer whose
length is not exactly 1120 = 1088 + 32 and on a 1120-byte buffer splits at
offset 1088; a wrong-length buffer is never partially parsed. -/
theorem C4_decode_length_gate (buf : Bytes) :
    COMBINED_PUBKEY_LEN = 1184 + 32 ∧
    COMBINED_CIPHERTEXT_LEN = 1088 + 32 ∧
    (buf.length ≠ 1216 → ReceivedShare.new buf = none) ∧
    (buf.length = 1216 →
      ReceivedShare.new buf = some ⟨buf.take 1184, buf.drop 1184⟩) ∧
    (buf.length ≠ 1120 → ReceivedCiphertext.new buf = none) ∧
    (buf.length = 1120 →
      ReceivedCiphertext.new buf = some ⟨buf.take 1088, buf.drop 1088⟩) := by
  refine ⟨rfl, rfl, ?_, ?_, ?_, ?_⟩ <;>
    intro h <;>
    simp [ReceivedShare.new, ReceivedCiphertext.new, COMBINED_PUBKEY_LEN,
      COMBINED_CIPHERTEXT_LEN, MLKEM768_ENCAP_LEN, MLKEM768_CIPHERTEXT_LEN,
      X25519_LEN, h]

/-- C4 witness: the length gate at the boundary inputs — the empty buffer is
rejected by both decoders and exact-length buffers are split in place. -/
theorem C4_decode_length_gate_witness :
    ReceivedShare.new [] = none ∧
    ReceivedShare.new (wEk ++ wIpub) =
      some ⟨(wEk ++ wIpub).take 1184, (wEk ++ wIpub).drop 1184⟩ ∧
    ReceivedCiphertext.new [] = none ∧
    ReceivedCiphertext.new (wCts ++ wRpub) =
      some ⟨(wCts ++ wRpub).take 1088, (wCts ++ wRpub).drop 1088⟩ :=
  ⟨(C4_decode_length_gate []).2.2.1 (by simp),
   (C4_decode_length_gate (wEk ++ wIpub)).2.2.2.1 toy_share_len,
   (C4_decode_length_gate []).2.2.2.2.1 (by simp),
   (C4_decode_length_gate (wCts ++ wRpub)).2.2.2.2.2 toy_ciphertext_len⟩

/-- C3: for every pair of 32-byte input secrets, the combined secret is
exactly 64 bytes, bytes [0,32) are the KEM shared secret and bytes [32,64)
are the classical shared secret; the initiator path (`Active::complete`)
and the responder path (`start_and_complete`) both produce exactly this
`CombinedSecret::combine` value, whose fixed KEM-first layout is determined
by the parameter roles and not by the call site. -/
theorem C3_combined_secret_layout (x k : Bytes) (cp : ClassicalProvider)
    (kp : KemProvider) (a : Active) (pp : Bytes) (ct : ReceivedCiphertext)
    (r1 r2 : Nat) (share : Bytes) (s : ReceivedShare) (xpub pk cts : Bytes)
    (hx : x.length = 32) (hk : k.length = 32)
    (hct : ReceivedCiphertext.new pp = some ct)
    (hcx : cp.complete a.x25519 ct.x25519 = some x)
    (hdk : kp.decapsulate a.decap_key ct.ml_kem = some k)
    (hs : ReceivedShare.new share = some s)
    (hsac : cp.start_and_complete r1 s.x25519 = .ok (xpub, x))
    (hek : kp.new_encapsulation_key s.ml_kem = some pk)
    (henc : kp.encapsulate pk r2 = some (cts, k)) :
    (CombinedSecret.combine x k).length = 64 ∧
    (CombinedSecret.combine x k).take 32 = k ∧
    (CombinedSecret.combine x k).drop 32 = x ∧
    Active.complete cp kp a pp = .ok (CombinedSecret.combine x k) ∧
    Except.map (fun out => out.secret)
      (X25519MLKEM768.start_and_complete cp kp r1 r2 share) =
      .ok (CombinedSecret.combine x k) := by
  have hc : CombinedSecret.combine x k = k ++ x :=
    combined_secret_eq_append x k hx hk
  refine ⟨?_, ?_, ?_, ?_, ?_⟩
  · rw [hc, List.length_append, hx, hk]
  · rw [hc, List.take_left' hk]
  · rw [hc, List.drop_left' hk]
  · simp only [Active.complete, hct, hcx, hdk]
  · simp only [X25519MLKEM768.start_and_complete, hs, hsac, hek, henc,
      Except.map]

/-- C3 witness: the layout and both derivation paths at the honest toy run. -/
theorem C3_combined_secret_layout_witness :
    (CombinedSecret.combine wXs wKss).length = 64 ∧
    (CombinedSecret.combine wXs wKss).take 32 = wKss ∧
    (CombinedSecret.combine wXs wKss).drop 32 = wXs ∧
    Active.complete toyClassical toyKem
      { x25519 := wIpub, decap_key := wDk, combined_pub_key := wEk ++ wIpub }
      (wCts ++ wRpub) = .ok (CombinedSecret.combine wXs wKss) ∧
    Except.map (fun out => out.secret)
      (X25519MLKEM768.start_and_complete toyClassical toyKem 3 4 (wEk ++ wIpub)) =
      .ok (CombinedSecret.combine wXs wKss) :=
  C3_combined_secret_layout wXs wKss toyClassical toyKem
    { x25519 := wIpub, decap_key := wDk, combined_pub_key := wEk ++ wIpub }
    (wCts ++ wRpub) ⟨wCts, wRpub⟩ 3 4 (wEk ++ wIpub) ⟨wEk, wIpub⟩ wRpub wEk wCts
    wXs_len wKss_len
    (received_ciphertext_new_append wCts wRpub wCts_len wRpub_len)
    toy_complete_i toy_decapsulate
    (received_share_new_append wEk wIpub wEk_len wIpub_len)
    toy_sac toy_new_ek toy_encapsulate

/-- C5: every encoded combined ciphertext (`CombinedShare::combine`) is
exactly 1120 bytes, its first 1088 bytes are the unmodified KEM ciphertext
and its trailing 32 bytes are the classical public key; every combined
share built by `start` is exactly 1216 bytes, its first 1184 bytes are the
unmodified KEM encapsulation-key bytes and its trailing 32 bytes are the
classical public key; both encodings are fixed-length by construction. -/
theorem C5_encoding_layout (xpub cts : Bytes) (cp : ClassicalProvider)
    (kp : KemProvider) (r1 r2 : Nat) (xpriv ipub dk ek : Bytes)
    (hxp : xpub.length = 32) (hcts : cts.length = 1088)
    (h1 : cp.start r1 = some (xpriv, ipub))
    (h2 : kp.generate r2 = some dk)
    (h3 : kp.encapsulation_key dk = some ek)
    (hek : ek.length = 1184) (hip : ipub.length = 32) :
    (CombinedShare.combine xpub cts).length = 1120 ∧
    (CombinedShare.combine xpub cts).take 1088 = cts ∧
    (CombinedShare.combine xpub cts).drop 1088 = xpub ∧
    X25519MLKEM768.start cp kp r1 r2 =
      .ok { x25519 := xpriv, decap_key := dk, combined_pub_key := ek ++ ipub } ∧
    (ek ++ ipub).length = 1216 ∧
    (ek ++ ipub).take 1184 = ek ∧
    (ek ++ ipub).drop 1184 = ipub := by
  have hc : CombinedShare.combine xpub cts = cts ++ xpub :=
    combined_share_eq_append xpub cts hxp hcts
  refine ⟨?_, ?_, ?_, ?_, ?_, ?_, ?_⟩
  · rw [hc, List.length_append, hxp, hcts]
  · rw [hc, List.take_left' hcts]
  · rw [hc, List.drop_left' hcts]
  · simp only [X25519MLKEM768.start, h1, h2, h3]
  · rw [List.length_append, hek, hip]
  · exact List.take_left' hek
  · exact List.drop_left' hek

/-- C5 witness: the encoded shapes at the honest toy run. -/
theorem C5_encoding_layout_witness :
    (CombinedShare.combine wRpub wCts).length = 1120 ∧
    (CombinedShare.combine wRpub wCts).take 1088 = wCts ∧
    (CombinedShare.combine wRpub wCts).drop 1088 = wRpub ∧
    X25519MLKEM768.start toyClassical toyKem 1 2 =
      .ok { x25519 := wIpub, decap_key := wDk, combined_pub_key := wEk ++ wIpub } ∧
    (wEk ++ wIpub).length = 1216 ∧
    (wEk ++ wIpub).take 1184 = wEk ∧
    (wEk ++ wIpub).drop 1184 = wIpub :=
  C5_encoding_layout wRpub wCts toyClassical toyKem 1 2 wIpub wIpub wDk wEk
    wRpub_len wCts_len toy_start1 toy_generate toy_encap_key wEk_len wIpub_len

/-- C8: `usable_for_version` is true exactly on TLS 1.3 and false on every
other protocol version value. -/
theorem C8_usable_only_tls13 (version : ProtocolVersion) :
    X25519MLKEM768.usable_for_version version = true ↔
      version = ProtocolVersion.TLSv1_3 := by
  simp [X25519MLKEM768.usable_for_version]

/-- C10: the group identifier is the single constant
`NamedGroup::Unknown(0x11ec)`; `name()` and `group()` return it for every
state, so the negotiated identifier and the in-progress identifier always
agree. -/
theorem C10_group_identifier_constant (a : Active) :
    X25519MLKEM768.name = NamedGroup.Unknown 0x11ec ∧
    Active.group a = NamedGroup.Unknown 0x11ec ∧
    Active.group a = X25519MLKEM768.name :=
  ⟨rfl, rfl, rfl⟩

/-- C1: the honest round trip.  Under the spec §6 contracts for the
external primitives — both key generations succeed with contract-length
outputs, classical Diffie-Hellman agreement (both `complete` directions
yield the same secret `xs`), and KEM correctness (`decapsulate` of the
encapsulated ciphertext recovers the encapsulated secret `kss`) — the
initiator's `start` yields the 1216-byte share, the responder's
`start_and_complete` on it yields the combined ciphertext and the 64-byte
secret `kss ++ xs`, and the initiator's `complete` on that ciphertext
returns bit-identical bytes. -/
theorem C1_roundtrip_secret_agreement (cp : ClassicalProvider)
    (kp : KemProvider) (r1 r2 r3 r4 : Nat)
    (xpriv ipub dk ek rpriv rpub pk cts kss xs : Bytes)
    (h1 : cp.start r1 = some (xpriv, ipub))
    (h2 : kp.generate r2 = some dk)
    (h3 : kp.encapsulation_key dk = some ek)
    (hek : ek.length = 1184) (hip : ipub.length = 32)
    (h4 : cp.start r3 = some (rpriv, rpub))
    (h5 : cp.complete rpriv ipub = some xs)
    (h6 : kp.new_encapsulation_key ek = some pk)
    (h7 : kp.encapsulate pk r4 = some (cts, kss))
    (hrp : rpub.length = 32) (hcts : cts.length = 1088)
    (hxs : xs.length = 32) (hkss : kss.length = 32)
    (h8 : cp.complete xpriv rpub = some xs)
    (h9 : kp.decapsulate dk cts = some kss) :
    X25519MLKEM768.start cp kp r1 r2 =
      .ok { x25519 := xpriv, decap_key := dk, combined_pub_key := ek ++ ipub } ∧
    X25519MLKEM768.start_and_complete cp kp r3 r4
        (Active.pub_key ⟨xpriv, dk, ek ++ ipub⟩) =
      .ok { group := X25519MLKEM768.name, pub_key := cts ++ rpub,
            secret := kss ++ xs } ∧
    Active.complete cp kp
        { x25519 := xpriv, decap_key := dk, combined_pub_key := ek ++ ipub }
        (cts ++ rpub) = .ok (kss ++ xs) ∧
    (ek ++ ipub).length = 1216 ∧ (cts ++ rpub).length = 1120 ∧
    (kss ++ xs).length = 64 := by
  refine ⟨?_, ?_, ?_, ?_, ?_, ?_⟩
  · simp only [X25519MLKEM768.start, h1, h2, h3]
  · simp only [Active.pub_key, X25519MLKEM768.start_and_complete,
      received_share_new_append ek ipub hek hip,
      ClassicalProvider.start_and_complete, h4, h5, h6, h7,
      combined_share_eq_append rpub cts hrp hcts,
      combined_secret_eq_append xs kss hxs hkss]
  · simp only [Active.complete,
      received_ciphertext_new_append cts rpub hcts hrp, h8, h9,
      combined_secret_eq_append xs kss hxs hkss]
  · rw [List.length_append, hek, hip]
  · rw [List.length_append, hcts, hrp]
  · rw [List.length_append, hkss, hxs]

/-- C1 witness: the honest toy run, both completed secrets bit-identical. -/
theorem C1_roundtrip_secret_agreement_witness :
    X25519MLKEM768.start toyClassical toyKem 1 2 =
      .ok { x25519 := wIpub, decap_key := wDk, combined_pub_key := wEk ++ wIpub } ∧
    X25519MLKEM768.start_and_complete toyClassical toyKem 3 4
        (Active.pub_key ⟨wIpub, wDk, wEk ++ wIpub⟩) =
      .ok { group := X25519MLKEM768.name, pub_key := wCts ++ wRpub,
            secret := wKss ++ wXs } ∧
    Active.complete toyClassical toyKem
        { x25519 := wIpub, decap_key := wDk, combined_pub_key := wEk ++ wIpub }
        (wCts ++ wRpub) = .ok (wKss ++ wXs) ∧
    (wEk ++ wIpub).length = 1216 ∧ (wCts ++ wRpub).length = 1120 ∧
    (wKss ++ wXs).length = 64 :=
  C1_roundtrip_secret_agreement toyClassical toyKem 1 2 3 4
    wIpub wIpub wDk wEk wRpub wRpub wEk wCts wKss wXs
    toy_start1 toy_generate toy_encap_key wEk_len wIpub_len
    toy_start3 toy_complete_r toy_new_ek toy_encapsulate
    wRpub_len wCts_len wXs_len wKss_len
    toy_complete_i toy_decapsulate

/-- C2: whenever `Active::complete` fails, and whenever
`start_and_complete` fails with the responder's own classical key
generation succeeding (so the failure is due to the peer-supplied
material: a wrong-length buffer, a rejected classical key, a rejected
encapsulation key, or a failed encapsulation/decapsulation), the returned
error is the one constant `INVALID_KEY_SHARE`, identical in both roles and
for every failing sub-step. -/
theorem C2_uniform_invalid_key_share (cp : ClassicalProvider)
    (kp : KemProvider) (a : Active) (pp : Bytes) (e1 : Error)
    (r1 r2 : Nat) (share : Bytes) (e2 : Error)
    (hstart : (cp.start r1).isSome = true)
    (h1 : Active.complete cp kp a pp = .error e1)
    (h2 : X25519MLKEM768.start_and_complete cp kp r1 r2 share = .error e2) :
    e1 = INVALID_KEY_SHARE ∧ e2 = INVALID_KEY_SHARE ∧ e1 = e2 := by
  have he1 : e1 = INVALID_KEY_SHARE := by
    rcases hc : ReceivedCiphertext.new pp with _ | ct
    · simp only [Active.complete, hc] at h1
      exact (Except.error.inj h1).symm
    · rcases hcm : cp.complete a.x25519 ct.x25519 with _ | xs
      · simp only [Active.complete, hc, hcm] at h1
        exact (Except.error.inj h1).symm
      · rcases hdk : kp.decapsulate a.decap_key ct.ml_kem with _ | ks
        · simp only [Active.complete, hc, hcm, hdk] at h1
          exact (Except.error.inj h1).symm
        · simp only [Active.complete, hc, hcm, hdk] at h1
          exact absurd h1 (by simp)
  have he2 : e2 = INVALID_KEY_SHARE := by
    rcases hs : ReceivedShare.new share with _ | s
    · simp only [X25519MLKEM768.start_and_complete, hs] at h2
      exact (Except.error.inj h2).symm
    · rcases hst : cp.start r1 with _ | ⟨xpriv, xpub⟩
      · rw [hst] at hstart
        simp at hstart
      · rcases hcm : cp.complete xpriv s.x25519 with _ | xs
        · simp only [X25519MLKEM768.start_and_complete, hs,
            ClassicalProvider.start_and_complete, hst, hcm] at h2
          exact (Except.error.inj h2).symm
        · rcases hne : kp.new_encapsulation_key s.ml_kem with _ | pk
          · simp only [X25519MLKEM768.start_and_complete, hs,
              ClassicalProvider.start_and_complete, hst, hcm, hne] at h2
            exact (Except.error.inj h2).symm
          · rcases henc : kp.encapsulate pk r2 with _ | ⟨cts, kss⟩
            · simp only [X25519MLKEM768.start_and_complete, hs,
                ClassicalProvider.start_and_complete, hst, hcm, hne, henc] at h2
              exact (Except.error.inj h2).symm
            · simp only [X25519MLKEM768.start_and_complete, hs,
                ClassicalProvider.start_and_complete, hst, hcm, hne, henc] at h2
              exact absurd h2 (by simp)
  exact ⟨he1, he2, he1.trans he2.symm⟩

/-- C2 witness: a wrong-length ciphertext on the initiator side and a
wrong-length share on the responder side both fail with exactly
`INVALID_KEY_SHARE`. -/
theorem C2_uniform_invalid_key_share_witness :
    INVALID_KEY_SHARE = INVALID_KEY_SHARE ∧
    INVALID_KEY_SHARE = INVALID_KEY_SHARE ∧
    INVALID_KEY_SHARE = INVALID_KEY_SHARE :=
  C2_uniform_invalid_key_share toyClassical toyKem
    ⟨wIpub, wDk, wEk ++ wIpub⟩ [] INVALID_KEY_SHARE 0 0 [] INVALID_KEY_SHARE
    (by simp [toyClassical])
    (by simp [Active.complete, ReceivedCiphertext.new, COMBINED_CIPHERTEXT_LEN,
      MLKEM768_CIPHERTEXT_LEN, X25519_LEN])
    (by simp [X25519MLKEM768.start_and_complete, ReceivedShare.new,
      COMBINED_PUBKEY_LEN, MLKEM768_ENCAP_LEN, X25519_LEN])

/-- C6: `start` succeeds whenever the classical key generation and the KEM
key generation (including derivation of the encapsulation key) succeed, and
every failure `start` can return is `Error::FailedToGetRandomBytes`, the
entropy/key-generation error. -/
theorem C6_start_fails_only_on_entropy (cp cq : ClassicalProvider)
    (kp kq : KemProvider) (r1 r2 q1 q2 : Nat) (xpriv xpub dk ek : Bytes)
    (e : Error)
    (h1 : cp.start r1 = some (xpriv, xpub))
    (h2 : kp.generate r2 = some dk)
    (h3 : kp.encapsulation_key dk = some ek)
    (herr : X25519MLKEM768.start cq kq q1 q2 = .error e) :
    X25519MLKEM768.start cp kp r1 r2 =
      .ok { x25519 := xpriv, decap_key := dk, combined_pub_key := ek ++ xpub } ∧
    e = .FailedToGetRandomBytes := by
  constructor
  · simp only [X25519MLKEM768.start, h1, h2, h3]
  · rcases hst : cq.start q1 with _ | ⟨ypriv, ypub⟩
    · simp only [X25519MLKEM768.start, hst] at herr
      exact (Except.error.inj herr).symm
    · rcases hg : kq.generate q2 with _ | dk2
      · simp only [X25519MLKEM768.start, hst, hg] at herr
        exact (Except.error.inj herr).symm
      · rcases hk : kq.encapsulation_key dk2 with _ | ek2
        · simp only [X25519MLKEM768.start, hst, hg, hk] at herr
          exact (Except.error.inj herr).symm
        · simp only [X25519MLKEM768.start, hst, hg, hk] at herr
          exact absurd herr (by simp)

/-- C6 witness: a successful toy generation run returns `Ok`, and a failing
entropy source makes `start` return exactly `FailedToGetRandomBytes`. -/
theorem C6_start_fails_only_on_entropy_witness :
    X25519MLKEM768.start toyClassical toyKem 1 2 =
      .ok { x25519 := wIpub, decap_key := wDk, combined_pub_key := wEk ++ wIpub } ∧
    Error.FailedToGetRandomBytes = Error.FailedToGetRandomBytes :=
  C6_start_fails_only_on_entropy toyClassical failClassical toyKem toyKem
    1 2 0 0 wIpub wIpub wDk wEk Error.FailedToGetRandomBytes
    toy_start1 toy_generate toy_encap_key
    (by simp [X25519MLKEM768.start, failClassical])

/-- C7: for every byte buffer offered as the ciphertext, `Active::complete`
is total (the embedding is a total function, mirroring the panic-free
source): it fails with exactly `INVALID_KEY_SHARE`, or it succeeds, and a
success is always the combination of the two sub-secrets freshly computed
from that very ciphertext — never a reused or stale value. -/
theorem C7_complete_total_no_stale (cp : ClassicalProvider) (kp : KemProvider)
    (a : Active) (pp : Bytes) :
    Active.complete cp kp a pp = .error INVALID_KEY_SHARE ∨
    (∃ ct xs ks, ReceivedCiphertext.new pp = some ct ∧
      cp.complete a.x25519 ct.x25519 = some xs ∧
      kp.decapsulate a.decap_key ct.ml_kem = some ks ∧
      Active.complete cp kp a pp = .ok (CombinedSecret.combine xs ks)) := by
  rcases hc : ReceivedCiphertext.new pp with _ | ct
  · exact Or.inl (by simp only [Active.complete, hc])
  · rcases hcm : cp.complete a.x25519 ct.x25519 with _ | xs
    · exact Or.inl (by simp only [Active.complete, hc, hcm])
    · rcases hdk : kp.decapsulate a.decap_key ct.ml_kem with _ | ks
      · exact Or.inl (by simp only [Active.complete, hc, hcm, hdk])
      · refine Or.inr ⟨ct, xs, ks, rfl, hcm, hdk, ?_⟩
        simp only [Active.complete, hc, hcm, hdk]

/-- C9: for every ephemeral state produced by `start`, `pub_key` returns
exactly the 1216-byte combined share computed at start time — the KEM
encapsulation-key bytes followed by the 32 classical public-key bytes — and
it is the stored `combined_pub_key` field, which no operation of the state
ever rewrites. -/
theorem C9_pub_key_is_start_share (cp : ClassicalProvider) (kp : KemProvider)
    (r1 r2 : Nat) (xpriv xpub dk ek : Bytes) (a : Active)
    (h1 : cp.start r1 = some (xpriv, xpub))
    (h2 : kp.generate r2 = some dk)
    (h3 : kp.encapsulation_key dk = some ek)
    (hek : ek.length = 1184) (hxp : xpub.length = 32)
    (ha : X25519MLKEM768.start cp kp r1 r2 = .ok a) :
    Active.pub_key a = ek ++ xpub ∧
    (Active.pub_key a).length = 1216 ∧
    (Active.pub_key a).take 1184 = ek ∧
    (Active.pub_key a).drop 1184 = xpub ∧
    Active.pub_key a = a.combined_pub_key := by
  simp only [X25519MLKEM768.start, h1, h2, h3] at ha
  have haa : a = (⟨xpriv, dk, ek ++ xpub⟩ : Active) := (Except.ok.inj ha).symm
  subst haa
  refine ⟨rfl, ?_, ?_, ?_, rfl⟩
  · show (ek ++ xpub).length = 1216
    rw [List.length_append, hek, hxp]
  · exact List.take_left' hek
  · exact List.drop_left' hek

/-- C9 witness: the toy state's public key is the share built at start. -/
theorem C9_pub_key_is_start_share_witness :
    Active.pub_key ⟨wIpub, wDk, wEk ++ wIpub⟩ = wEk ++ wIpub ∧
    (Active.pub_key ⟨wIpub, wDk, wEk ++ wIpub⟩).length = 1216 ∧
    (Active.pub_key ⟨wIpub, wDk, wEk ++ wIpub⟩).take 1184 = wEk ∧
    (Active.pub_key ⟨wIpub, wDk, wEk ++ wIpub⟩).drop 1184 = wIpub ∧
    Active.pub_key ⟨wIpub, wDk, wEk ++ wIpub⟩ =
      (⟨wIpub, wDk, wEk ++ wIpub⟩ : Active).combined_pub_key :=
  C9_pub_key_is_start_share toyClassical toyKem 1 2 wIpub wIpub wDk wEk
    ⟨wIpub, wDk, wEk ++ wIpub⟩
    toy_start1 toy_generate toy_encap_key wEk_len wIpub_len
    (by simp only [X25519MLKEM768.start, toy_start1, toy_generate, toy_encap_key])
